import Mathlib

/-!
Verification of the zenoh `KeyExpr` value type and its wire-optimization
logic (`src/zenoh/src/key_expr/mod.rs`).

The embedding models Rust strings at character granularity (`String` in
Lean, with explicit drop/length helpers), the four-variant
`KeyExprInner` sum type, the session-scoped wire encoding `to_wire`,
the optimizability predicates, the composition operators `join` and
`concat`, and the ownership conversions `borrowing_clone` and
`into_owned`.  Fallible string slicing is modelled with `Option`
(a `none` models a Rust slicing panic); fallible construction with
`Except`.
-/

namespace ZenohKeyExpr

/-- Character-level length of a string (models Rust `str::len` at the
granularity of characters). -/
def strLen (s : String) : Nat := s.data.length

/-- Drop the first `n` characters of `s` (models the Rust slice
`&s[n..]`); total version, used once the bound is known to hold. -/
def strDrop (s : String) (n : Nat) : String := ⟨s.data.drop n⟩

/-- Drop the first `n` characters of `s`, `none` when `n` is out of
range (models the panic of the Rust slice `&s[n..]` when `n > s.len()`). -/
def strDropOpt (s : String) (n : Nat) : Option String :=
  if n ≤ strLen s then some (strDrop s n) else none

/-- Models Rust `s.ends_with('*')`: the last character is `*`. -/
def strEndsWithStar (s : String) : Bool := s.data.getLast? == some '*'

/-- Models Rust `s.starts_with('*')`: the first character is `*`. -/
def strStartsWithStar (s : String) : Bool := s.data.head? == some '*'

/-- The text ends with the multi-segment wildcard token `**`
(spec-side notion, used to state claims about `concat`). -/
def strEndsWithStarStar (s : String) : Bool :=
  s.data.getLast? == some '*' && s.data.dropLast.getLast? == some '*'

/-- The text starts with the multi-segment wildcard token `**`
(spec-side notion, used to state claims about `concat`). -/
def strStartsWithStarStar (s : String) : Bool :=
  match s.data with
  | '*' :: '*' :: _ => true
  | _ => false

/-- The four shapes of `KeyExprInner<'a>`.  `keyExpr` carries the
validated key-expression text (the external `keyexpr`/`OwnedKeyExpr`
types are validated strings; borrowed and owned forms hold the same
text).  The wire fields model `expr_id : u64`, `prefix_len : u32`
(written `prefLen` here) and `session_id : u16`; no arithmetic is
performed on them, so they are carried as `Nat`. -/
inductive KeyExprInner where
  | Borrowed (keyExpr : String)
  | BorrowedWire (keyExpr : String) (exprId : Nat) (prefLen : Nat) (sessionId : Nat)
  | Owned (keyExpr : String)
  | Wire (keyExpr : String) (exprId : Nat) (prefLen : Nat) (sessionId : Nat)
deriving DecidableEq

/-- `pub struct KeyExpr<'a>(pub(crate) KeyExprInner<'a>);` -/
structure KeyExpr where
  inner : KeyExprInner
deriving DecidableEq

/-- The session object, opaque except for its stable numeric `id`
(`session.id` is compared against the stored `session_id`). -/
structure Session where
  id : Nat

/-- `zenoh_protocol_core::WireExpr`: the compact wire form
`(scope, suffix)`. -/
structure WireExpr where
  scope : Nat
  suffix : String
deriving DecidableEq

/-- The `Deref` impl: every shape exposes the same validated text view. -/
def KeyExpr.keyexprText : KeyExpr → String
  | ⟨.Borrowed keyExpr⟩ => keyExpr
  | ⟨.BorrowedWire keyExpr _ _ _⟩ => keyExpr
  | ⟨.Owned keyExpr⟩ => keyExpr
  | ⟨.Wire keyExpr _ _ _⟩ => keyExpr

/-- Observer (used only in statements): the wire fields
`(exprId, prefLen, sessionId)` when the shape carries them. -/
def KeyExpr.wireInfo : KeyExpr → Option (Nat × Nat × Nat)
  | ⟨.BorrowedWire _ exprId prefLen sessionId⟩ => some (exprId, prefLen, sessionId)
  | ⟨.Wire _ exprId prefLen sessionId⟩ => some (exprId, prefLen, sessionId)
  | _ => none

/-- Observer (used only in statements): the shape carries a wire
annotation (`Wire` or `BorrowedWire`). -/
def KeyExpr.isWireShape : KeyExpr → Bool
  | ⟨.BorrowedWire _ _ _ _⟩ => true
  | ⟨.Wire _ _ _ _⟩ => true
  | _ => false

/-- Observer (used only in statements): the shape is the owned `Wire`
variant. -/
def KeyExpr.isOwnedWire : KeyExpr → Bool
  | ⟨.Wire _ _ _ _⟩ => true
  | _ => false

/-- Observer (used only in statements): the shape is borrowed
(`Borrowed` or `BorrowedWire`). -/
def KeyExpr.isBorrowedShape : KeyExpr → Bool
  | ⟨.Borrowed _⟩ => true
  | ⟨.BorrowedWire _ _ _ _⟩ => true
  | _ => false

/-- The representation invariant from the spec: the stored
`prefix_len` never exceeds the length of the text. -/
def KeyExpr.wireInv (k : KeyExpr) : Prop :=
  ∀ e p sid, k.wireInfo = some (e, p, sid) → p ≤ strLen k.keyexprText

/-- `KeyExpr::to_wire(&self, session)`.  The two wire shapes with a
matching `session_id` yield the compact form (scope `expr_id`, suffix
the text with the first `prefix_len` characters removed — `none` models
the out-of-range slicing panic); every other case yields scope `0` and
the full text. -/
def KeyExpr.to_wire (k : KeyExpr) (session : Session) : Option WireExpr :=
  match k.inner with
  | .Wire keyExpr exprId prefLen sessionId =>
      if session.id = sessionId then
        (strDropOpt keyExpr prefLen).map fun suf => ⟨exprId, suf⟩
      else some ⟨0, keyExpr⟩
  | .BorrowedWire keyExpr exprId prefLen sessionId =>
      if session.id = sessionId then
        (strDropOpt keyExpr prefLen).map fun suf => ⟨exprId, suf⟩
      else some ⟨0, keyExpr⟩
  | .Owned keyExpr => some ⟨0, keyExpr⟩
  | .Borrowed keyExpr => some ⟨0, keyExpr⟩

/-- `KeyExpr::is_optimized(&self, session)`. -/
def KeyExpr.is_optimized (k : KeyExpr) (session : Session) : Bool :=
  match k.inner with
  | .Wire _ exprId _ sessionId => exprId != 0 && session.id == sessionId
  | .BorrowedWire _ exprId _ sessionId => exprId != 0 && session.id == sessionId
  | _ => false

/-- `KeyExpr::is_fully_optimized(&self, session)` (its body is
identical to `is_optimized`). -/
def KeyExpr.is_fully_optimized (k : KeyExpr) (session : Session) : Bool :=
  match k.inner with
  | .Wire _ exprId _ sessionId => exprId != 0 && session.id == sessionId
  | .BorrowedWire _ exprId _ sessionId => exprId != 0 && session.id == sessionId
  | _ => false

/-- Modelled from the spec: the external key-expression grammar
(`OwnedKeyExpr::try_from` / `keyexpr::new`, which live outside `src/`
in `zenoh-protocol-core`) is kept abstract, as the spec prescribes for
the validated-key dependency: a capability of type `text -> bool`.
Operations that re-validate a composed string take a validator as a
parameter. -/
def Validator : Type := String → Bool

/-- Error kinds of the fallible operations: grammar violation
(`InvalidKeyExpression`) and the wildcard-adjacency rejection of
`concat` (`AmbiguousConcatenation`, the `bail!` in the source). -/
inductive KeyExprError where
  | InvalidKeyExpression
  | AmbiguousConcatenation
deriving DecidableEq

/-- `KeyExpr::join(&self, s)`: validate `self_text ++ "/" ++ s` as a
whole; on success the `Wire` shape keeps its wire fields on the new
owned result, every other shape yields a plain owned result. -/
def KeyExpr.join (V : Validator) (k : KeyExpr) (s : String) :
    Except KeyExprError KeyExpr :=
  let t := k.keyexprText ++ "/" ++ s
  if V t then
    match k.inner with
    | .Wire _ exprId prefLen sessionId => .ok ⟨.Wire t exprId prefLen sessionId⟩
    | _ => .ok ⟨.Owned t⟩
  else .error .InvalidKeyExpression

/-- `KeyExpr::concat(&self, s)`: first the wildcard-adjacency guard
(`self.ends_with('*') && s.starts_with('*')` bails), then validation of
the raw concatenation; on success the `Wire` and `BorrowedWire` shapes
keep their wire fields on the new owned result. -/
def KeyExpr.concat (V : Validator) (k : KeyExpr) (s : String) :
    Except KeyExprError KeyExpr :=
  if strEndsWithStar k.keyexprText && strStartsWithStar s then
    .error .AmbiguousConcatenation
  else
    let t := k.keyexprText ++ s
    if V t then
      match k.inner with
      | .Wire _ exprId prefLen sessionId => .ok ⟨.Wire t exprId prefLen sessionId⟩
      | .BorrowedWire _ exprId prefLen sessionId => .ok ⟨.Wire t exprId prefLen sessionId⟩
      | _ => .ok ⟨.Owned t⟩
    else .error .InvalidKeyExpression

/-- `KeyExpr::borrowing_clone(&self)`: same text and wire fields, with
owned shapes downgraded to borrowed ones. -/
def KeyExpr.borrowing_clone (k : KeyExpr) : KeyExpr :=
  match k.inner with
  | .Borrowed keyExpr => ⟨.Borrowed keyExpr⟩
  | .BorrowedWire keyExpr exprId prefLen sessionId =>
      ⟨.BorrowedWire keyExpr exprId prefLen sessionId⟩
  | .Owned keyExpr => ⟨.Borrowed keyExpr⟩
  | .Wire keyExpr exprId prefLen sessionId =>
      ⟨.BorrowedWire keyExpr exprId prefLen sessionId⟩

/-- `KeyExpr::into_owned(self)`: same text and wire fields, with
borrowed shapes upgraded to owned ones. -/
def KeyExpr.into_owned (k : KeyExpr) : KeyExpr :=
  match k.inner with
  | .Borrowed keyExpr => ⟨.Owned keyExpr⟩
  | .Owned keyExpr => ⟨.Owned keyExpr⟩
  | .BorrowedWire keyExpr exprId prefLen sessionId =>
      ⟨.Wire keyExpr exprId prefLen sessionId⟩
  | .Wire keyExpr exprId prefLen sessionId =>
      ⟨.Wire keyExpr exprId prefLen sessionId⟩

/-- The `PartialEq` impl: `self.as_keyexpr() == other.as_keyexpr()`,
i.e. comparison of the textual content only. -/
def KeyExpr.beqImpl (a b : KeyExpr) : Bool := a.keyexprText == b.keyexprText

/-- The `Display` impl: displays the textual content. -/
def KeyExpr.displayImpl (k : KeyExpr) : String := k.keyexprText

/-- The `Hash` impl: hashes `self.as_keyexpr()`, i.e. the textual
content, through whichever hasher `h` is supplied. -/
def KeyExpr.hashImpl (h : String → Nat) (k : KeyExpr) : Nat := h k.keyexprText

/-- `TryFrom<&str> for KeyExpr`: validate, then borrow. -/
def keyExprTryFromStr (V : Validator) (s : String) : Except KeyExprError KeyExpr :=
  if V s then .ok ⟨.Borrowed s⟩ else .error .InvalidKeyExpression

/-- `TryFrom<String> for KeyExpr`: validate, then own. -/
def keyExprTryFromString (V : Validator) (s : String) : Except KeyExprError KeyExpr :=
  if V s then .ok ⟨.Owned s⟩ else .error .InvalidKeyExpression

/-- `From<&keyexpr> for KeyExpr`: wrap an already-validated borrowed key. -/
def keyExprFromValidated (s : String) : KeyExpr := ⟨.Borrowed s⟩

/-- `KeyExpr::from_string_unchecked`: wrap without validation. -/
def keyExprFromStringUnchecked (s : String) : KeyExpr := ⟨.Owned s⟩

/-- Characterization of `to_wire` through the `wireInfo` observer
(shared helper for the wire-encoding claims). -/
theorem to_wire_eq (k : KeyExpr) (s : Session) :
    k.to_wire s =
      (match k.wireInfo with
       | some (e, p, sid) =>
           if s.id = sid then (strDropOpt k.keyexprText p).map fun suf => ⟨e, suf⟩
           else some ⟨0, k.keyexprText⟩
       | none => some ⟨0, k.keyexprText⟩) := by
  obtain ⟨inner⟩ := k
  cases inner <;> rfl

/-- Shared helper: in-range character drop succeeds. -/
theorem strDropOpt_of_le (s : String) (n : Nat) (h : n ≤ strLen s) :
    strDropOpt s n = some (strDrop s n) := by
  simp [strDropOpt, h]

/-- Characterization of `join` (shared helper for the composition
claims). -/
theorem join_eq (V : Validator) (k : KeyExpr) (s : String) :
    k.join V s =
      (if V (k.keyexprText ++ "/" ++ s) then
        .ok (match k.inner with
             | .Wire _ e p sid => ⟨.Wire (k.keyexprText ++ "/" ++ s) e p sid⟩
             | _ => ⟨.Owned (k.keyexprText ++ "/" ++ s)⟩)
      else .error .InvalidKeyExpression) := by
  obtain ⟨inner⟩ := k
  cases inner <;> rfl

/-- Characterization of `concat` (shared helper for the composition
claims). -/
theorem concat_eq (V : Validator) (k : KeyExpr) (s : String) :
    k.concat V s =
      (if strEndsWithStar k.keyexprText && strStartsWithStar s then
        .error .AmbiguousConcatenation
      else if V (k.keyexprText ++ s) then
        .ok (match k.inner with
             | .Wire _ e p sid => ⟨.Wire (k.keyexprText ++ s) e p sid⟩
             | .BorrowedWire _ e p sid => ⟨.Wire (k.keyexprText ++ s) e p sid⟩
             | _ => ⟨.Owned (k.keyexprText ++ s)⟩)
      else .error .InvalidKeyExpression) := by
  obtain ⟨inner⟩ := k
  cases inner <;> rfl

/-- Shared helper: the representation invariant for a concrete owned
wire shape. -/
theorem wireInv_wire (ke : String) (e p sid : Nat) (h : p ≤ strLen ke) :
    KeyExpr.wireInv ⟨.Wire ke e p sid⟩ := by
  intro e2 p2 sid2 hw
  simp only [KeyExpr.wireInfo, Option.some.injEq, Prod.mk.injEq] at hw
  obtain ⟨-, hp, -⟩ := hw
  simpa [KeyExpr.keyexprText, ← hp] using h

/-- Shared helper: the representation invariant holds vacuously for a
plain borrowed shape. -/
theorem wireInv_borrowed (ke : String) : KeyExpr.wireInv ⟨.Borrowed ke⟩ := by
  intro e p sid hw
  simp [KeyExpr.wireInfo] at hw

/-- C1: `to_wire(session)` returns the compact form
`(scope = exprId, suffix = text with the first prefLen characters
removed)` exactly when the key expression carries a wire annotation
whose owning session id equals `session.id`, and returns the fallback
`(scope = 0, suffix = full text)` in every other case (no annotation,
or annotation owned by a different session). -/
theorem to_wire_compact_iff_owning_session (k : KeyExpr) (s : Session)
    (hinv : k.wireInv) :
    (∀ e p, k.wireInfo = some (e, p, s.id) →
      k.to_wire s = some ⟨e, strDrop k.keyexprText p⟩)
    ∧ ((∀ e p sid, k.wireInfo = some (e, p, sid) → sid ≠ s.id) →
      k.to_wire s = some ⟨0, k.keyexprText⟩) := by
  constructor
  · intro e p hw
    rw [to_wire_eq, hw]
    simp [strDropOpt_of_le _ _ (hinv e p s.id hw)]
  · intro hall
    rw [to_wire_eq]
    cases hw : k.wireInfo with
    | none => rfl
    | some x =>
      obtain ⟨e, p, sid⟩ := x
      have hne : s.id ≠ sid := fun hc => hall e p sid hw hc.symm
      simp [hne]

/-- Witness for C1: the spec's own example, annotation
`(numeric_id 7, prefix_length 4, owning session 5)` over `"key1/x"`
queried with session 5 encodes as `(scope 7, suffix "/x")`. -/
theorem to_wire_compact_iff_owning_session_witness :
    KeyExpr.to_wire ⟨.Wire "key1/x" 7 4 5⟩ ⟨5⟩ = some ⟨7, "/x"⟩ := by
  have h := (to_wire_compact_iff_owning_session ⟨.Wire "key1/x" 7 4 5⟩ ⟨5⟩
    (wireInv_wire "key1/x" 7 4 5 (by decide))).1 7 4 rfl
  rw [h]
  decide

/-- C2 counterexample: an annotation with `numeric_id = 0`,
`prefix_length = 4` and a MATCHING owning session yields scope `0`
with a truncated suffix `"/x"`, not the complete text `"key1/x"`. -/
theorem scope_zero_truncated_suffix_cex :
    KeyExpr.to_wire ⟨.Wire "key1/x" 0 4 5⟩ ⟨5⟩ = some ⟨0, "/x"⟩
    ∧ ("/x" : String) ≠ "key1/x" := by
  refine ⟨?_, by decide⟩
  decide

/-- C2 (amended): whenever no annotation owned by the queried session
is present, `to_wire` returns scope `0` with the complete text; but an
annotation with `numeric_id = 0` owned by the queried session yields
scope `0` with the truncated remainder `text[prefLen:]` instead of the
full text. -/
theorem scope_zero_full_text_unless_owned (k : KeyExpr) (s : Session)
    (hinv : k.wireInv) :
    ((∀ e p sid, k.wireInfo = some (e, p, sid) → sid ≠ s.id) →
        k.to_wire s = some ⟨0, k.keyexprText⟩)
    ∧ (∀ p, k.wireInfo = some (0, p, s.id) →
        k.to_wire s = some ⟨0, strDrop k.keyexprText p⟩) := by
  constructor
  · intro hall
    rw [to_wire_eq]
    cases hw : k.wireInfo with
    | none => rfl
    | some x =>
      obtain ⟨e, p, sid⟩ := x
      have hne : s.id ≠ sid := fun hc => hall e p sid hw hc.symm
      simp [hne]
  · intro p hw
    rw [to_wire_eq, hw]
    simp [strDropOpt_of_le _ _ (hinv 0 p s.id hw)]

/-- Witness for C2 (amended): a plain borrowed key expression encodes
as scope `0` with its complete text. -/
theorem scope_zero_full_text_unless_owned_witness :
    KeyExpr.to_wire ⟨.Borrowed "key1/x"⟩ ⟨5⟩ = some ⟨0, "key1/x"⟩ :=
  (scope_zero_full_text_unless_owned ⟨.Borrowed "key1/x"⟩ ⟨5⟩
    (wireInv_borrowed "key1/x")).1
    (by intro e p sid hw; simp [KeyExpr.wireInfo] at hw)

/-- C3 counterexample: a borrowed-with-wire source with annotation
`(7, 1, 5)` successfully joins with `"b"`, but the result is a plain
owned key expression carrying NO wire annotation — `join` only
preserves the annotation of the owned `Wire` shape. -/
theorem join_borrowed_wire_drops_annotation_cex :
    KeyExpr.wireInfo ⟨.BorrowedWire "a" 7 1 5⟩ = some (7, 1, 5)
    ∧ KeyExpr.join (fun _ => true) ⟨.BorrowedWire "a" 7 1 5⟩ "b"
        = .ok ⟨.Owned "a/b"⟩
    ∧ KeyExpr.wireInfo ⟨.Owned "a/b"⟩ = none := by
  refine ⟨rfl, ?_, rfl⟩
  rw [join_eq]
  have h : KeyExpr.keyexprText ⟨.BorrowedWire "a" 7 1 5⟩ ++ "/" ++ "b" = "a/b" := by
    decide
  simp [h]

/-- C3 (amended): a successful `concat` preserves the source's wire
fields unchanged for both wire shapes (and yields no annotation for
plain sources); a successful `join` preserves them only for the owned
`Wire` shape and yields an unannotated result for every other shape,
including the borrowed-with-wire one. -/
theorem join_concat_wire_propagation (V : Validator) (k : KeyExpr) (s : String) :
    (∀ r, k.join V s = .ok r →
        r.wireInfo = if k.isOwnedWire then k.wireInfo else none)
    ∧ (∀ r, k.concat V s = .ok r → r.wireInfo = k.wireInfo) := by
  obtain ⟨inner⟩ := k
  constructor
  · intro r hr
    rw [join_eq] at hr
    split at hr
    · cases inner <;> simp only [Except.ok.injEq] at hr <;> subst hr <;> rfl
    · exact absurd hr (by simp)
  · intro r hr
    rw [concat_eq] at hr
    split at hr
    · exact absurd hr (by simp)
    · split at hr
      · cases inner <;> simp only [Except.ok.injEq] at hr <;> subst hr <;> rfl
      · exact absurd hr (by simp)

/-- Witness for C3 (amended): `concat` on a borrowed-with-wire source
keeps the annotation `(7, 1, 5)`. -/
theorem join_concat_wire_propagation_witness :
    KeyExpr.wireInfo ⟨.Wire ("a" ++ "b") 7 1 5⟩
      = KeyExpr.wireInfo ⟨.BorrowedWire "a" 7 1 5⟩ :=
  (join_concat_wire_propagation (fun _ => true) ⟨.BorrowedWire "a" 7 1 5⟩ "b").2
    ⟨.Wire ("a" ++ "b") 7 1 5⟩ rfl

/-- C4 counterexample: `concat("foo/*", "*")` is rejected with
`AmbiguousConcatenation` although neither does `"foo/*"` end with the
multi-segment wildcard token `**` nor does `"*"` start with it — the
guard in the code fires on single-`*` adjacency, not only on `**`
adjacency. -/
theorem concat_single_star_guard_cex :
    KeyExpr.concat (fun _ => true) ⟨.Borrowed "foo/*"⟩ "*"
      = .error .AmbiguousConcatenation
    ∧ strEndsWithStarStar "foo/*" = false
    ∧ strStartsWithStarStar "*" = false := by
  refine ⟨rfl, by decide, by decide⟩

/-- C4 (amended): `concat(a, b)` fails with `AmbiguousConcatenation`
if and only if `a`'s text ends with the wildcard character `*` and
`b`'s text starts with `*` (this covers the `**`/`**` adjacency of the
original claim, but also fires on single-star adjacency such as
`concat("foo/*", "*")`). -/
theorem concat_ambiguous_iff_star_adjacent (V : Validator) (k : KeyExpr)
    (s : String) :
    k.concat V s = .error .AmbiguousConcatenation
      ↔ (strEndsWithStar k.keyexprText && strStartsWithStar s) = true := by
  rw [concat_eq]
  constructor
  · intro h
    by_contra hc
    rw [if_neg hc] at h
    split at h <;> simp at h
  · intro h
    rw [if_pos h]

/-- Witness for C4 (amended): the original claim's mandatory failing
example `concat("foo/**", "**/bar")` is indeed rejected. -/
theorem concat_ambiguous_iff_star_adjacent_witness :
    KeyExpr.concat (fun _ => true) ⟨.Borrowed "foo/**"⟩ "**/bar"
      = .error .AmbiguousConcatenation :=
  (concat_ambiguous_iff_star_adjacent (fun _ => true) ⟨.Borrowed "foo/**"⟩
    "**/bar").mpr (by decide)

/-- C5: `is_optimized` and `is_fully_optimized` are the identical
predicate, true if and only if a wire annotation is present with
`numeric_id ≠ 0` and an owning session id equal to the queried
session's id; false for every other combination (in particular for
`numeric_id = 0` with a matching session). -/
theorem is_optimized_iff_usable (k : KeyExpr) (s : Session) :
    k.is_optimized s = k.is_fully_optimized s
    ∧ (k.is_optimized s = true ↔
        ∃ e p sid, k.wireInfo = some (e, p, sid) ∧ e ≠ 0 ∧ sid = s.id) := by
  obtain ⟨inner⟩ := k
  cases inner with
  | Borrowed ke =>
      simp [KeyExpr.is_optimized, KeyExpr.is_fully_optimized, KeyExpr.wireInfo]
  | Owned ke =>
      simp [KeyExpr.is_optimized, KeyExpr.is_fully_optimized, KeyExpr.wireInfo]
  | BorrowedWire ke e p sid =>
      refine ⟨rfl, ?_, ?_⟩
      · intro h
        simp only [KeyExpr.is_optimized, Bool.and_eq_true, bne_iff_ne,
          beq_iff_eq] at h
        exact ⟨e, p, sid, rfl, h.1, h.2.symm⟩
      · rintro ⟨e2, p2, sid2, hw, hne, hsid⟩
        simp only [KeyExpr.wireInfo, Option.some.injEq, Prod.mk.injEq] at hw
        obtain ⟨he, -, hs⟩ := hw
        subst he
        subst hs
        simp only [KeyExpr.is_optimized, Bool.and_eq_true, bne_iff_ne,
          beq_iff_eq]
        exact ⟨hne, hsid.symm⟩
  | Wire ke e p sid =>
      refine ⟨rfl, ?_, ?_⟩
      · intro h
        simp only [KeyExpr.is_optimized, Bool.and_eq_true, bne_iff_ne,
          beq_iff_eq] at h
        exact ⟨e, p, sid, rfl, h.1, h.2.symm⟩
      · rintro ⟨e2, p2, sid2, hw, hne, hsid⟩
        simp only [KeyExpr.wireInfo, Option.some.injEq, Prod.mk.injEq] at hw
        obtain ⟨he, -, hs⟩ := hw
        subst he
        subst hs
        simp only [KeyExpr.is_optimized, Bool.and_eq_true, bne_iff_ne,
          beq_iff_eq]
        exact ⟨hne, hsid.symm⟩

/-- Witness for C5: annotation `(7, 4, 5)` queried with session 5 is
optimizable. -/
theorem is_optimized_iff_usable_witness :
    KeyExpr.is_optimized ⟨.Wire "key1/x" 7 4 5⟩ ⟨5⟩ = true :=
  (is_optimized_iff_usable ⟨.Wire "key1/x" 7 4 5⟩ ⟨5⟩).2.mpr
    ⟨7, 4, 5, rfl, by decide, rfl⟩

/-- C6: a successful `join(a, b)` yields text `a_text ++ "/" ++ b_text`
and a successful `concat(a, b)` yields text `a_text ++ b_text` (no
separator); both fail with `InvalidKeyExpression` when the composed
string violates the grammar (for `concat`, once its adjacency guard
does not fire first). -/
theorem join_concat_text_and_validation (V : Validator) (k : KeyExpr)
    (s : String) :
    (∀ r, k.join V s = .ok r → r.keyexprText = k.keyexprText ++ "/" ++ s)
    ∧ (∀ r, k.concat V s = .ok r → r.keyexprText = k.keyexprText ++ s)
    ∧ (V (k.keyexprText ++ "/" ++ s) = false →
        k.join V s = .error .InvalidKeyExpression)
    ∧ ((strEndsWithStar k.keyexprText && strStartsWithStar s) = false →
        V (k.keyexprText ++ s) = false →
        k.concat V s = .error .InvalidKeyExpression) := by
  obtain ⟨inner⟩ := k
  refine ⟨?_, ?_, ?_, ?_⟩
  · intro r hr
    rw [join_eq] at hr
    split at hr
    · cases inner <;> simp only [Except.ok.injEq] at hr <;> subst hr <;> rfl
    · exact absurd hr (by simp)
  · intro r hr
    rw [concat_eq] at hr
    split at hr
    · exact absurd hr (by simp)
    · split at hr
      · cases inner <;> simp only [Except.ok.injEq] at hr <;> subst hr <;> rfl
      · exact absurd hr (by simp)
  · intro hv
    rw [join_eq, if_neg (by simp [hv])]
  · intro hg hv
    rw [concat_eq, if_neg (by simp [hg]), if_neg (by simp [hv])]

/-- Witness for C6: `join("a", "b")` yields the text `"a" ++ "/" ++ "b"`. -/
theorem join_concat_text_and_validation_witness :
    KeyExpr.keyexprText ⟨.Owned ("a" ++ "/" ++ "b")⟩
      = KeyExpr.keyexprText ⟨.Borrowed "a"⟩ ++ "/" ++ "b" :=
  (join_concat_text_and_validation (fun _ => true) ⟨.Borrowed "a"⟩ "b").1
    ⟨.Owned ("a" ++ "/" ++ "b")⟩ rfl

/-- C7: under the representation invariant `prefLen ≤ strLen text`,
`to_wire` is total — it produces a wire form (never the `none` that
models a slicing fault) for every session; `is_optimized` and
`is_fully_optimized` are total by type. -/
theorem to_wire_is_total (k : KeyExpr) (s : Session) (hinv : k.wireInv) :
    ∃ w, k.to_wire s = some w := by
  rw [to_wire_eq]
  cases hw : k.wireInfo with
  | none => exact ⟨_, rfl⟩
  | some x =>
    obtain ⟨e, p, sid⟩ := x
    by_cases h : s.id = sid
    · exact ⟨⟨e, strDrop k.keyexprText p⟩, by
        simp [h, strDropOpt_of_le _ _ (hinv e p sid hw)]⟩
    · exact ⟨⟨0, k.keyexprText⟩, by simp [h]⟩

/-- Witness for C7: the owned wire shape over `"key1/x"` with
`prefLen 4 ≤ 6` produces a wire form. -/
theorem to_wire_is_total_witness :
    ∃ w, KeyExpr.to_wire ⟨.Wire "key1/x" 7 4 5⟩ ⟨5⟩ = some w :=
  to_wire_is_total ⟨.Wire "key1/x" 7 4 5⟩ ⟨5⟩
    (wireInv_wire "key1/x" 7 4 5 (by decide))

/-- C8: equality, hash and display are defined purely over the textual
content, independent of shape (borrowed/owned, plain/wire) and of the
constructor used (validating `TryFrom`, pre-validated `From`, or
unchecked); key expressions with different text are unequal. -/
theorem textual_equality_hash_display (a b : KeyExpr) (h : String → Nat)
    (V : Validator) (str : String) :
    (a.beqImpl b = true ↔ a.keyexprText = b.keyexprText)
    ∧ a.displayImpl = a.keyexprText
    ∧ (a.keyexprText = b.keyexprText →
        a.hashImpl h = b.hashImpl h ∧ a.displayImpl = b.displayImpl)
    ∧ (∀ r, keyExprTryFromStr V str = .ok r → r.keyexprText = str)
    ∧ (∀ r, keyExprTryFromString V str = .ok r → r.keyexprText = str)
    ∧ (keyExprFromValidated str).keyexprText = str
    ∧ (keyExprFromStringUnchecked str).keyexprText = str := by
  refine ⟨?_, rfl, ?_, ?_, ?_, rfl, rfl⟩
  · simp [KeyExpr.beqImpl]
  · intro he
    exact ⟨congrArg h he, he⟩
  · intro r hr
    rw [keyExprTryFromStr] at hr
    split at hr
    · simp only [Except.ok.injEq] at hr
      subst hr
      rfl
    · exact absurd hr (by simp)
  · intro r hr
    rw [keyExprTryFromString] at hr
    split at hr
    · simp only [Except.ok.injEq] at hr
      subst hr
      rfl
    · exact absurd hr (by simp)

/-- Witness for C8: an owned plain key and a borrowed wire-annotated
key over the same text `"a/b"` compare equal. -/
theorem textual_equality_hash_display_witness :
    KeyExpr.beqImpl ⟨.Owned "a/b"⟩ ⟨.BorrowedWire "a/b" 7 1 5⟩ = true :=
  (textual_equality_hash_display ⟨.Owned "a/b"⟩ ⟨.BorrowedWire "a/b" 7 1 5⟩
    strLen (fun _ => true) "a/b").1.mpr rfl

/-- C9: `into_owned` is total, and `borrowing_clone ∘ into_owned`
reproduces the original text and compares equal to the original value;
`borrowing_clone` preserves the shape category (plain stays plain,
wire stays wire, with unchanged wire fields) while its result is
always a borrowed shape, and `into_owned` likewise preserves the text
and the wire fields. -/
theorem into_owned_borrowing_clone_roundtrip (k : KeyExpr) :
    k.into_owned.borrowing_clone.keyexprText = k.keyexprText
    ∧ k.into_owned.borrowing_clone.beqImpl k = true
    ∧ k.into_owned.keyexprText = k.keyexprText
    ∧ k.into_owned.wireInfo = k.wireInfo
    ∧ k.borrowing_clone.keyexprText = k.keyexprText
    ∧ k.borrowing_clone.wireInfo = k.wireInfo
    ∧ k.borrowing_clone.isWireShape = k.isWireShape
    ∧ k.borrowing_clone.isBorrowedShape = true := by
  obtain ⟨inner⟩ := k
  cases inner <;>
    simp [KeyExpr.into_owned, KeyExpr.borrowing_clone, KeyExpr.keyexprText,
      KeyExpr.wireInfo, KeyExpr.isWireShape, KeyExpr.isBorrowedShape,
      KeyExpr.beqImpl]

/-- C10: the ownership conversions change neither the wire encoding
nor the optimizability answer: `to_wire` and both optimizability
predicates agree on `k`, `into_owned k` and `borrowing_clone k` for
every session. -/
theorem conversions_preserve_wire_encoding (k : KeyExpr) (s : Session) :
    k.into_owned.to_wire s = k.to_wire s
    ∧ k.borrowing_clone.to_wire s = k.to_wire s
    ∧ k.into_owned.is_optimized s = k.is_optimized s
    ∧ k.borrowing_clone.is_optimized s = k.is_optimized s
    ∧ k.into_owned.is_fully_optimized s = k.is_fully_optimized s
    ∧ k.borrowing_clone.is_fully_optimized s = k.is_fully_optimized s := by
  obtain ⟨inner⟩ := k
  cases inner <;>
    simp [KeyExpr.into_owned, KeyExpr.borrowing_clone, KeyExpr.to_wire,
      KeyExpr.is_optimized, KeyExpr.is_fully_optimized]

end ZenohKeyExpr
